import Mathlib

/-!
Shallow embedding of the `kpi` front-end sources relevant to the verified
claims:

* `jsapp/js/projects/projectViews/constants.ts` — the static registries
  `FILTER_CONDITIONS`, `PROJECT_FIELDS` and `DEFAULT_PROJECT_FIELDS`.
  The TypeScript objects are string-keyed records; they are embedded as
  association lists `List (String × _)` preserving declaration order.
* `jsapp/js/components/modalForms/bulkEditSubmissionsForm.es6` — the
  bulk-edit modal form.  Component state is a Lean structure, methods are
  state-transition functions; methods that dereference
  `this.state.selectedQuestion` return `Option` (with `none` standing for
  the JavaScript `TypeError` raised when no question is selected).
  JavaScript values flowing through the override logic (`undefined`,
  `null`, strings) are the inductive `JSValue`.
* `cypress/cypress/support/commands.js` — the overwritten `contains`
  command.  Argument values are modelled as `undefined`, strings, or the
  options object (the JavaScript `null` literal is never passed by the
  code and is not modelled).

Effects on `this.props` callbacks (`onModalClose`, modal titles) and the
dispatched actions are modelled as explicit outputs of the transition
functions.
-/

/-- Translation function `t` of the UI code; the embedding treats
translation as the identity on the source string. -/
def t (s : String) : String := s

/-- Boolean test that `pat` is a prefix of the second character list. -/
def charsPrefix : List Char → List Char → Bool
  | [], _ => true
  | _ :: _, [] => false
  | a :: as, b :: bs => a == b && charsPrefix as bs

/-- Boolean test that `pat` occurs contiguously somewhere in the second
character list. -/
def charsContain (pat : List Char) : List Char → Bool
  | [] => charsPrefix pat []
  | c :: rest => charsPrefix pat (c :: rest) || charsContain pat rest

/-- String containment test: `strContains s pat` holds when `pat` occurs as
a contiguous substring of `s` (as `String.prototype.includes`). -/
def strContains (s pat : String) : Bool :=
  charsContain pat.data s.data

/-- One entry of `FILTER_CONDITIONS`
(`interface FilterConditionDefinition`, constants.ts). -/
structure FilterConditionDefinition where
  name : String
  label : String
  requiresValue : Bool
  filterQuery : String
deriving DecidableEq

/-- The static `FILTER_CONDITIONS` registry of constants.ts, embedded as a
string-keyed association list in declaration order. -/
def FILTER_CONDITIONS : List (String × FilterConditionDefinition) :=
  [ ("is",
     { name := "is", label := t "Is", requiresValue := true,
       filterQuery := "<field>__iexact:<term>" }),
    ("isNot",
     { name := "isNot", label := t "Is not", requiresValue := true,
       filterQuery := "NOT <field>__iexact:<term>" }),
    ("contains",
     { name := "contains", label := t "Contains", requiresValue := true,
       filterQuery := "<field>__icontains:<term>" }),
    ("doesNotContain",
     { name := "doesNotContain", label := t "Does not contain",
       requiresValue := true,
       filterQuery := "NOT <field>__icontains:<term>" }),
    ("startsWith",
     { name := "startsWith", label := t "Starts with", requiresValue := true,
       filterQuery := "<field>__istartswith:<term>" }),
    ("endsWith",
     { name := "endsWith", label := t "Ends with", requiresValue := true,
       filterQuery := "<field>__iendswith:<term>" }),
    ("isEmpty",
     { name := "isEmpty", label := t "Is empty", requiresValue := false,
       filterQuery := "<field>:\"\"" }),
    ("isNotEmpty",
     { name := "isNotEmpty", label := t "Is not empty", requiresValue := false,
       filterQuery := "NOT <field>:\"\"" }) ]

/-- One entry of `PROJECT_FIELDS`
(`interface ProjectFieldDefinition`, constants.ts). -/
structure ProjectFieldDefinition where
  name : String
  label : String
  apiPropertyName : String
  filterable : Bool
  orderable : Bool
deriving DecidableEq

/-- The static `PROJECT_FIELDS` registry of constants.ts, embedded as a
string-keyed association list in declaration order. -/
def PROJECT_FIELDS : List (String × ProjectFieldDefinition) :=
  [ ("name",
     { name := "name", label := t "Project name", apiPropertyName := "name",
       filterable := true, orderable := true }),
    ("description",
     { name := "description", label := t "Description",
       apiPropertyName := "settings__description",
       filterable := true, orderable := true }),
    ("status",
     { name := "status", label := t "Status",
       apiPropertyName := "_deployment_data",
       filterable := true, orderable := true }),
    ("ownerUsername",
     { name := "ownerUsername", label := t "Owner username",
       apiPropertyName := "owner__username",
       filterable := true, orderable := true }),
    ("ownerFullName",
     { name := "ownerFullName", label := t "Owner full name",
       apiPropertyName := "owner__extra_details__data__name",
       filterable := true, orderable := true }),
    ("ownerEmail",
     { name := "ownerEmail", label := t "Owner email",
       apiPropertyName := "owner__email",
       filterable := true, orderable := true }),
    ("ownerOrganization",
     { name := "ownerOrganization", label := t "Owner organization",
       apiPropertyName := "owner__extra_details__data__organization",
       filterable := true, orderable := true }),
    ("dateModified",
     { name := "dateModified", label := t "Date modified",
       apiPropertyName := "date_modified__date",
       filterable := true, orderable := true }),
    ("dateDeployed",
     { name := "dateDeployed", label := t "Date deployed",
       apiPropertyName := "date_deployed__date",
       filterable := false, orderable := false }),
    ("sector",
     { name := "sector", label := t "Sector",
       apiPropertyName := "settings__sector",
       filterable := true, orderable := true }),
    ("countries",
     { name := "countries", label := t "Countries",
       apiPropertyName := "settings__country_codes[]",
       filterable := true, orderable := true }),
    ("languages",
     { name := "languages", label := t "Languages",
       apiPropertyName := "summary__languages[]",
       filterable := true, orderable := true }),
    ("submissions",
     { name := "submissions", label := t "Submissions",
       apiPropertyName := "deployment__submission_count",
       filterable := false, orderable := false }) ]

/-- The `DEFAULT_PROJECT_FIELDS` list of constants.ts. -/
def DEFAULT_PROJECT_FIELDS : List String :=
  [ "countries", "dateModified", "dateDeployed", "name",
    "ownerUsername", "status", "submissions" ]

/-- JavaScript values flowing through the bulk-edit override logic:
`undefined`, `null`, or a string. -/
inductive JSValue
  | undef
  | nullv
  | str (s : String)
deriving DecidableEq, Repr

/-- The override value meaning "no answer", distinct from "no override
answer" (de facto `undefined`): `const EMPTY_VALUE = null`. -/
def EMPTY_VALUE : JSValue := JSValue.nullv

/-- The label displayed for a question with no answer:
`const EMPTY_VALUE_LABEL = t('n/d')`. -/
def EMPTY_VALUE_LABEL : String := t "n/d"

/-- JavaScript `typeof v === 'string'` on a `JSValue`. -/
def JSValue.isAString : JSValue → Bool
  | JSValue.str _ => true
  | _ => false

/-- Length of a `JSValue` that is a string (`v.length`); only read by the
code under an `isAString` guard. -/
def JSValue.strLength : JSValue → Nat
  | JSValue.str s => s.length
  | _ => 0

/-- The fields of a question object that the modelled methods read
(produced by `getFlatQuestionsList`). -/
structure Question where
  name : String
  label : String
deriving DecidableEq

/-- The fields of the `asset` prop that the modelled methods read. -/
structure Asset where
  uid : String
deriving DecidableEq

/-- The props of `BulkEditSubmissionsForm` that the modelled methods read. -/
structure FormProps where
  asset : Asset
  totalSubmissions : Nat
  selectedSubmissions : List String

/-- The submission-override map (question name → override value).  A key
that is absent (`none`) means "no override set"; a present key may hold the
sentinel `EMPTY_VALUE` or a string. -/
def Overrides : Type := String → Option JSValue

/-- The component state of `BulkEditSubmissionsForm` as set up in its
constructor. -/
structure FormState where
  isPending : Bool
  overrides : Overrides
  selectedQuestion : Option Question
  selectedQuestionOverride : JSValue
  filterByName : String
  filterByValue : String

/-- Method `onRowOverrideChange(questionName, value)`: when the given name
is the selected question's name, store the value as the pending override for
that question, turning `undefined` into the `EMPTY_VALUE` sentinel.  `none`
models the `TypeError` thrown when no question is selected. -/
def onRowOverrideChange (st : FormState) (questionName : String)
    (value : JSValue) : Option FormState :=
  match st.selectedQuestion with
  | none => none
  | some q =>
    if questionName = q.name then
      if value = JSValue.undef then
        some { st with selectedQuestionOverride := EMPTY_VALUE }
      else
        some { st with selectedQuestionOverride := value }
    else
      some st

/-- The payload of the `actions.submissions.bulkPatchValues` call made by
`onSubmit`. -/
structure BulkPatchValuesCall where
  uid : String
  submissionIds : List String
  data : Overrides

/-- Method `onSubmit()`: set the pending flag and dispatch
`bulkPatchValues(asset.uid, selectedSubmissions, overrides)`.  The second
component is the dispatched call. -/
def onSubmit (props : FormProps) (st : FormState) :
    FormState × BulkPatchValuesCall :=
  ({ st with isPending := true },
   { uid := props.asset.uid,
     submissionIds := props.selectedSubmissions,
     data := st.overrides })

/-- Method `onReset()`: drop all overrides. -/
def onReset (st : FormState) : FormState :=
  { st with overrides := fun _ => none }

/-- Listener `onBulkPatchValuesCompleted()`: clear the pending flag and call
`this.props.onModalClose()`.  The Boolean output records whether
`onModalClose` was called. -/
def onBulkPatchValuesCompleted (st : FormState) : FormState × Bool :=
  ({ st with isPending := false }, true)

/-- Listener `onBulkPatchValuesFailed()`: clear the pending flag only; the
modal is not closed. -/
def onBulkPatchValuesFailed (st : FormState) : FormState × Bool :=
  ({ st with isPending := false }, false)

/-- Method `goBackToList()`: deselect the question (the accompanying modal
title update touches only props callbacks, not state). -/
def goBackToList (st : FormState) : FormState :=
  { st with selectedQuestion := none,
            selectedQuestionOverride := JSValue.nullv }

/-- The condition of `saveOverride`'s `if`: the pending override is the
`EMPTY_VALUE` sentinel, or it is a string of length at least 1. -/
def overrideIsStorable (v : JSValue) : Bool :=
  decide (v = EMPTY_VALUE) || (v.isAString && decide (1 ≤ v.strLength))

/-- Method `saveOverride()`: copy the overrides, then either store the
pending override under the selected question's name (when it is the
sentinel or a non-empty string) or delete that key, and go back to the
list view.  `none` models the `TypeError` thrown when no question is
selected. -/
def saveOverride (st : FormState) : Option FormState :=
  match st.selectedQuestion with
  | none => none
  | some q =>
    let newOverrides : Overrides :=
      if overrideIsStorable st.selectedQuestionOverride then
        fun k => if k = q.name then some st.selectedQuestionOverride
                 else st.overrides k
      else
        fun k => if k = q.name then none else st.overrides k
    some (goBackToList { st with overrides := newOverrides })

/-- The two listeners whose unlisten callbacks `componentDidMount` pushes
onto `this.unlisteners`. -/
inductive BulkPatchValuesListener
  | completed
  | failed
deriving DecidableEq, Repr

/-- The `unlisteners` list as left by `componentDidMount`: the unlisten
callbacks of the `bulkPatchValues.completed` and `bulkPatchValues.failed`
listeners, in push order. -/
def componentDidMountUnlisteners : List BulkPatchValuesListener :=
  [BulkPatchValuesListener.completed, BulkPatchValuesListener.failed]

/-- Method `componentWillUnmount()`: `this.unlisteners.forEach((clb) =>
{clb();})`.  The result is the trace of callback invocations, one per
`forEach` step, in order. -/
def componentWillUnmountCalls (unlisteners : List BulkPatchValuesListener) :
    List BulkPatchValuesListener :=
  unlisteners.foldl (fun calls clb => calls ++ [clb]) []

/-- The `responseValue` computation of `renderResponseRow(data)`: the
response itself, except that an `undefined` response is selected as the
`EMPTY_VALUE` sentinel. -/
def responseValueForSelect (response : JSValue) : JSValue :=
  if response = JSValue.undef then EMPTY_VALUE else response

/-- One `Map.set` step of `getUniqueResponses`: increment the count stored
under `v`, inserting `v ↦ 1` at the end when the key is missing (JavaScript
`Map` keeps insertion order and updates in place). -/
def bump : List (JSValue × Nat) → JSValue → List (JSValue × Nat)
  | [], v => [(v, 1)]
  | (k, n) :: rest, v =>
    if k = v then (k, n + 1) :: rest else (k, n) :: bump rest v

/-- Count stored under key `v` in an association list, `0` when absent
(`Map.get` with a default). -/
def countOf : List (JSValue × Nat) → JSValue → Nat
  | [], _ => 0
  | (k, n) :: rest, v => if k = v then n else countOf rest v

/-- The comparator `(a, b) => b[1] - a[1]` of `getUniqueResponses`, as the
order it sorts into: entries with larger counts come first. -/
def byCountDesc (a b : JSValue × Nat) : Prop := b.2 ≤ a.2

instance : DecidableRel byCountDesc := fun a b => Nat.decLe b.2 a.2

instance : IsTotal (JSValue × Nat) byCountDesc :=
  ⟨fun a b => Nat.le_total b.2 a.2⟩

instance : IsTrans (JSValue × Nat) byCountDesc :=
  ⟨fun _ _ _ h1 h2 => Nat.le_trans h2 h1⟩

/-- Method `getUniqueResponses()` of `BulkEditRowForm`: count the
occurrences of each response value of `originalData` in first-occurrence
order, then stably sort the entries by descending count
(`sort((a, b) => b[1] - a[1])`). -/
def getUniqueResponses (originalData : List JSValue) : List (JSValue × Nat) :=
  List.insertionSort byCountDesc (originalData.foldl bump [])

/-- The possible values of the `matchCase` property of a Cypress `contains`
options object: absent (`undefined`), `null`, or a Boolean. -/
inductive MatchCaseValue
  | undef
  | nullv
  | bool (b : Bool)
deriving DecidableEq, Repr

/-- The fields of the `contains` options object that the overwrite reads or
writes. -/
structure ContainsOptions where
  matchCase : MatchCaseValue
deriving DecidableEq, Repr

/-- An argument value of the overwritten `contains` command in the `filter`
or `text` slot: `undefined`, a string, or the options object. -/
inductive ContainsArg
  | undef
  | str (s : String)
  | obj (o : ContainsOptions)
deriving DecidableEq, Repr

/-- The argument tuple the overwrite passes on to `originalFn` (the
`subject` argument is forwarded untouched and is not modelled). -/
structure ContainsCall where
  filter : ContainsArg
  text : ContainsArg
  options : ContainsOptions
deriving DecidableEq, Repr

/-- The statement `options.matchCase ??= false` of the overwrite: assign
`false` when `matchCase` is `undefined` or `null`, keep it otherwise. -/
def matchCaseNullishDefault (o : ContainsOptions) : ContainsOptions :=
  match o.matchCase with
  | MatchCaseValue.undef => { o with matchCase := MatchCaseValue.bool false }
  | MatchCaseValue.nullv => { o with matchCase := MatchCaseValue.bool false }
  | MatchCaseValue.bool _ => o

/-- The overwritten Cypress `contains` command (commands.js): when the
`text` slot holds an object (`typeof text === 'object'`), shift the
arguments — the options object is taken from the `text` slot, `text` takes
the `filter` value and `filter` becomes `undefined` — then apply
`options.matchCase ??= false` and delegate.  `optionsArg = none` models a
call without an options argument, handled by the default `options = {}`;
an empty object literal has `matchCase` absent, i.e. `undefined`. -/
def containsOverwrite (filter text : ContainsArg)
    (optionsArg : Option ContainsOptions) : ContainsCall :=
  let options := optionsArg.getD { matchCase := MatchCaseValue.undef }
  match text with
  | ContainsArg.obj o =>
    { filter := ContainsArg.undef, text := filter,
      options := matchCaseNullishDefault o }
  | _ =>
    { filter := filter, text := text,
      options := matchCaseNullishDefault options }

/-- Concrete question used to instantiate the theorems about the bulk-edit
form. -/
def sampleQuestion : Question :=
  { name := "q1", label := "Question 1" }

/-- Concrete component state (a fresh form with `sampleQuestion` selected)
used to instantiate the theorems about the bulk-edit form. -/
def sampleState : FormState :=
  { isPending := false,
    overrides := fun _ => none,
    selectedQuestion := some sampleQuestion,
    selectedQuestionOverride := JSValue.undef,
    filterByName := "",
    filterByValue := "" }

theorem overrideIsStorable_iff (v : JSValue) :
    overrideIsStorable v = true ↔
      v = EMPTY_VALUE ∨ ∃ s, v = JSValue.str s ∧ 1 ≤ s.length := by
  cases v with
  | undef => simp [overrideIsStorable, EMPTY_VALUE, JSValue.isAString]
  | nullv => simp [overrideIsStorable, EMPTY_VALUE]
  | str s =>
    simp [overrideIsStorable, EMPTY_VALUE, JSValue.isAString, JSValue.strLength]

theorem saveOverride_eq (st : FormState) (q : Question)
    (h : st.selectedQuestion = some q) :
    saveOverride st = some (goBackToList { st with overrides :=
      if (overrideIsStorable st.selectedQuestionOverride) then
        (fun k => if k = q.name then (some st.selectedQuestionOverride) else (st.overrides k))
      else
        (fun k => if k = q.name then none else (st.overrides k)) }) := by
  unfold saveOverride
  rw [h]

theorem mem_keys_bump (l : List (JSValue × Nat)) (v a : JSValue) :
    a ∈ (bump l v).map Prod.fst ↔ a ∈ l.map Prod.fst ∨ a = v := by
  induction l with
  | nil => simp [bump]
  | cons p rest ih =>
    obtain ⟨k, n⟩ := p
    by_cases hk : k = v
    · subst hk
      simp [bump]
      tauto
    · simp [bump, hk, ih]
      tauto

theorem keys_nodup_bump (l : List (JSValue × Nat)) (v : JSValue)
    (h : (l.map Prod.fst).Nodup) : ((bump l v).map Prod.fst).Nodup := by
  induction l with
  | nil => simp [bump]
  | cons p rest ih =>
    obtain ⟨k, n⟩ := p
    rw [List.map_cons, List.nodup_cons] at h
    by_cases hk : k = v
    · subst hk
      simpa [bump] using h
    · rw [show bump ((k, n) :: rest) v = (k, n) :: bump rest v by
          simp [bump, hk]]
      rw [List.map_cons, List.nodup_cons]
      refine ⟨?_, ih h.2⟩
      rw [mem_keys_bump]
      rintro (hmem | rfl)
      · exact h.1 hmem
      · exact hk rfl

theorem countOf_bump_self (l : List (JSValue × Nat)) (v : JSValue) :
    countOf (bump l v) v = countOf l v + 1 := by
  induction l with
  | nil => simp [bump, countOf]
  | cons p rest ih =>
    obtain ⟨k, n⟩ := p
    by_cases hk : k = v
    · subst hk
      simp [bump, countOf]
    · simp [bump, countOf, hk, ih]

theorem countOf_bump_other (l : List (JSValue × Nat)) (v w : JSValue)
    (hw : w ≠ v) : countOf (bump l v) w = countOf l w := by
  induction l with
  | nil => simp [bump, countOf, Ne.symm hw]
  | cons p rest ih =>
    obtain ⟨k, n⟩ := p
    by_cases hk : k = v
    · have hvw : ¬v = w := fun h' => hw h'.symm
      simp [bump, countOf, hk, hvw]
    · by_cases hkw : k = w
      · simp [bump, countOf, hk, hkw, hw, ih]
      · simp [bump, countOf, hk, hkw, ih]

theorem sum_bump (l : List (JSValue × Nat)) (v : JSValue) :
    ((bump l v).map Prod.snd).sum = (l.map Prod.snd).sum + 1 := by
  induction l with
  | nil => simp [bump]
  | cons p rest ih =>
    obtain ⟨k, n⟩ := p
    by_cases hk : k = v
    · subst hk
      simp [bump]
      omega
    · simp [bump, hk, ih]
      omega

theorem countOf_foldl_bump (data : List JSValue) :
    ∀ (l : List (JSValue × Nat)) (v : JSValue),
      countOf (data.foldl bump l) v = countOf l v + data.count v := by
  induction data with
  | nil =>
    intro l v
    simp
  | cons d rest ih =>
    intro l v
    rw [List.foldl_cons, ih]
    by_cases hv : v = d
    · subst hv
      rw [countOf_bump_self]
      simp [List.count_cons]
      omega
    · rw [countOf_bump_other l d v hv]
      simp [List.count_cons, hv]

theorem sum_foldl_bump (data : List JSValue) :
    ∀ l : List (JSValue × Nat),
      ((data.foldl bump l).map Prod.snd).sum =
        (l.map Prod.snd).sum + data.length := by
  induction data with
  | nil =>
    intro l
    simp
  | cons d rest ih =>
    intro l
    rw [List.foldl_cons, ih, sum_bump]
    simp
    omega

theorem keys_nodup_foldl_bump (data : List JSValue) :
    ∀ l : List (JSValue × Nat), (l.map Prod.fst).Nodup →
      ((data.foldl bump l).map Prod.fst).Nodup := by
  induction data with
  | nil =>
    intro l h
    simpa using h
  | cons d rest ih =>
    intro l h
    rw [List.foldl_cons]
    exact ih _ (keys_nodup_bump l d h)

theorem mem_keys_foldl_bump (data : List JSValue) :
    ∀ (l : List (JSValue × Nat)) (a : JSValue),
      a ∈ (data.foldl bump l).map Prod.fst ↔
        a ∈ l.map Prod.fst ∨ a ∈ data := by
  induction data with
  | nil =>
    intro l a
    simp
  | cons d rest ih =>
    intro l a
    rw [List.foldl_cons, ih, mem_keys_bump]
    simp [List.mem_cons]
    tauto

theorem countOf_eq_of_mem (l : List (JSValue × Nat)) (a : JSValue) (m : Nat)
    (hnd : (l.map Prod.fst).Nodup) (hm : (a, m) ∈ l) : countOf l a = m := by
  induction l with
  | nil => cases hm
  | cons p rest ih =>
    obtain ⟨k, n⟩ := p
    rw [List.map_cons, List.nodup_cons] at hnd
    rcases List.mem_cons.mp hm with heq | hmem
    · cases heq
      simp [countOf]
    · have hka : k ≠ a := by
        intro hka
        subst hka
        exact hnd.1 (List.mem_map.mpr ⟨(k, m), hmem, rfl⟩)
      simp only [countOf, if_neg hka]
      exact ih hnd.2 hmem

/-- Claim C1: choosing a "no answer" override — an `undefined` input to
`onRowOverrideChange`, or selecting the response value offered for an
`undefined` answer — results, after `saveOverride`, in the overrides map
holding the sentinel `EMPTY_VALUE` (`null`) under the question's name,
which is distinct from the key being absent (no override set). -/
theorem noAnswerOverride_saves_null_sentinel (st : FormState) (q : Question)
    (h : st.selectedQuestion = some q) (value : JSValue)
    (hv : value = JSValue.undef ∨ value = responseValueForSelect JSValue.undef) :
    ∃ st1 st2,
      onRowOverrideChange st q.name value = some st1 ∧
      saveOverride st1 = some st2 ∧
      st2.overrides q.name = some EMPTY_VALUE ∧
      st2.overrides q.name ≠ none := by
  have hval : value = JSValue.undef ∨ value = JSValue.nullv := by
    rcases hv with h1 | h1
    · exact Or.inl h1
    · right
      simpa [responseValueForSelect, EMPTY_VALUE] using h1
  have hstep : onRowOverrideChange st q.name value =
      some { st with selectedQuestionOverride := JSValue.nullv } := by
    rcases hval with rfl | rfl
    · simp [onRowOverrideChange, h, EMPTY_VALUE]
    · simp [onRowOverrideChange, h, EMPTY_VALUE]
  have hsel : ({ st with selectedQuestionOverride := JSValue.nullv } :
      FormState).selectedQuestion = some q := h
  refine ⟨_, _, hstep, saveOverride_eq _ q hsel, ?_, ?_⟩
  · simp [goBackToList, overrideIsStorable, EMPTY_VALUE]
  · simp [goBackToList, overrideIsStorable, EMPTY_VALUE]

theorem noAnswerOverride_saves_null_sentinel_witness :
    sampleState.selectedQuestion = some sampleQuestion ∧
    (JSValue.undef = JSValue.undef ∨
      JSValue.undef = responseValueForSelect JSValue.undef) ∧
    ∃ st1 st2,
      onRowOverrideChange sampleState sampleQuestion.name JSValue.undef =
        some st1 ∧
      saveOverride st1 = some st2 ∧
      st2.overrides sampleQuestion.name = some EMPTY_VALUE ∧
      st2.overrides sampleQuestion.name ≠ none :=
  ⟨rfl, Or.inl rfl,
   noAnswerOverride_saves_null_sentinel sampleState sampleQuestion rfl
     JSValue.undef (Or.inl rfl)⟩

/-- Claim C2: on failure of `bulkPatchValues` the component only clears the
pending flag — the modal stays open and every other piece of state, in
particular the overrides map, is unchanged — whereas on completion it
clears the pending flag and closes the modal. -/
theorem bulkPatchValues_failure_only_clears_pending (st : FormState) :
    (onBulkPatchValuesFailed st).2 = false ∧
    (onBulkPatchValuesFailed st).1.isPending = false ∧
    (onBulkPatchValuesFailed st).1.overrides = st.overrides ∧
    (onBulkPatchValuesFailed st).1.selectedQuestion = st.selectedQuestion ∧
    (onBulkPatchValuesFailed st).1.selectedQuestionOverride =
      st.selectedQuestionOverride ∧
    (onBulkPatchValuesFailed st).1.filterByName = st.filterByName ∧
    (onBulkPatchValuesFailed st).1.filterByValue = st.filterByValue ∧
    (onBulkPatchValuesCompleted st).1.isPending = false ∧
    (onBulkPatchValuesCompleted st).2 = true :=
  ⟨rfl, rfl, rfl, rfl, rfl, rfl, rfl, rfl, rfl⟩

/-- Claim C3: the query template of the `contains` filter condition is
exactly `<field>__icontains:<term>` and that of `isNot` is exactly
`NOT <field>__iexact:<term>`. -/
theorem filter_query_templates_match_spec :
    (List.lookup "contains" FILTER_CONDITIONS).map
      (fun d => d.filterQuery) = some "<field>__icontains:<term>" ∧
    (List.lookup "isNot" FILTER_CONDITIONS).map
      (fun d => d.filterQuery) = some "NOT <field>__iexact:<term>" := by
  constructor
  · rfl
  · rfl

/-- Claim C4: `onSubmit` sets the pending flag and dispatches
`bulkPatchValues` with exactly the asset's uid, the full
`selectedSubmissions` list (unmodified and unfiltered) and the current
overrides map; no other state field changes. -/
theorem onSubmit_dispatches_full_selection (props : FormProps)
    (st : FormState) :
    (onSubmit props st).1.isPending = true ∧
    (onSubmit props st).2.uid = props.asset.uid ∧
    (onSubmit props st).2.submissionIds = props.selectedSubmissions ∧
    (onSubmit props st).2.data = st.overrides ∧
    (onSubmit props st).1.overrides = st.overrides ∧
    (onSubmit props st).1.selectedQuestion = st.selectedQuestion ∧
    (onSubmit props st).1.selectedQuestionOverride =
      st.selectedQuestionOverride ∧
    (onSubmit props st).1.filterByName = st.filterByName ∧
    (onSubmit props st).1.filterByValue = st.filterByValue :=
  ⟨rfl, rfl, rfl, rfl, rfl, rfl, rfl, rfl, rfl⟩

/-- Claim C5: in `FILTER_CONDITIONS` a condition requires a value exactly
when its query template contains the placeholder `<term>`; in particular
`isEmpty` and `isNotEmpty` have `requiresValue` false. -/
theorem requiresValue_iff_template_has_term :
    (FILTER_CONDITIONS.all fun p =>
      p.2.requiresValue == strContains p.2.filterQuery "<term>") = true ∧
    (List.lookup "isEmpty" FILTER_CONDITIONS).map
      (fun d => d.requiresValue) = some false ∧
    (List.lookup "isNotEmpty" FILTER_CONDITIONS).map
      (fun d => d.requiresValue) = some false := by
  refine ⟨?_, rfl, rfl⟩
  rfl

/-- Claim C6: both static registries are internally consistent key-value
tables — every entry's `name` field equals its key — and every entry of
`DEFAULT_PROJECT_FIELDS` is a key of `PROJECT_FIELDS`. -/
theorem registries_are_consistent :
    (PROJECT_FIELDS.all fun p => p.2.name == p.1) = true ∧
    (FILTER_CONDITIONS.all fun p => p.2.name == p.1) = true ∧
    (DEFAULT_PROJECT_FIELDS.all fun f =>
      (List.lookup f PROJECT_FIELDS).isSome) = true := by
  refine ⟨?_, ?_, ?_⟩
  · rfl
  · rfl
  · rfl

/-- Claim C7: `componentWillUnmount` invokes each listener callback pushed
onto `unlisteners` during `componentDidMount` (the `bulkPatchValues`
completed and failed listeners) exactly once — the invocation trace is
exactly the mounted list, each element occurring once. -/
theorem unmount_invokes_each_mount_unlistener_once :
    (componentWillUnmountCalls componentDidMountUnlisteners).count
      BulkPatchValuesListener.completed = 1 ∧
    (componentWillUnmountCalls componentDidMountUnlisteners).count
      BulkPatchValuesListener.failed = 1 ∧
    componentWillUnmountCalls componentDidMountUnlisteners =
      componentDidMountUnlisteners := by
  refine ⟨?_, ?_, ?_⟩
  · rfl
  · rfl
  · rfl

/-- Claim C8: `saveOverride` stores the pending override under the selected
question's name only when it is the `EMPTY_VALUE` sentinel or a string of
length at least 1; for any other value (empty string, `undefined`) it
removes that question's key instead, and in both cases every other key of
the overrides map is left unchanged. -/
theorem saveOverride_overrides_map_invariant (st : FormState) (q : Question)
    (h : st.selectedQuestion = some q) :
    ∃ st', saveOverride st = some st' ∧
      (∀ k, k ≠ q.name → st'.overrides k = st.overrides k) ∧
      ((st.selectedQuestionOverride = EMPTY_VALUE ∨
        ∃ s, st.selectedQuestionOverride = JSValue.str s ∧ 1 ≤ s.length) →
        st'.overrides q.name = some st.selectedQuestionOverride) ∧
      (¬(st.selectedQuestionOverride = EMPTY_VALUE ∨
         ∃ s, st.selectedQuestionOverride = JSValue.str s ∧ 1 ≤ s.length) →
        st'.overrides q.name = none) ∧
      (∀ v, st'.overrides q.name = some v →
        v = EMPTY_VALUE ∨ ∃ s, v = JSValue.str s ∧ 1 ≤ s.length) := by
  refine ⟨_, saveOverride_eq st q h, ?_, ?_, ?_, ?_⟩
  · intro k hk
    by_cases hc : overrideIsStorable st.selectedQuestionOverride = true <;>
      simp [goBackToList, hc, hk]
  · intro hcond
    have hc : overrideIsStorable st.selectedQuestionOverride = true :=
      (overrideIsStorable_iff _).mpr hcond
    simp [goBackToList, hc]
  · intro hcond
    have hc : overrideIsStorable st.selectedQuestionOverride = false := by
      rcases Bool.eq_false_or_eq_true
          (overrideIsStorable st.selectedQuestionOverride) with h' | h'
      · exact absurd ((overrideIsStorable_iff _).mp h') hcond
      · exact h'
    simp [goBackToList, hc]
  · intro v hv
    by_cases hc : overrideIsStorable st.selectedQuestionOverride = true
    · have hsel := (overrideIsStorable_iff _).mp hc
      simp [goBackToList, hc] at hv
      rw [← hv]
      exact hsel
    · rw [Bool.not_eq_true] at hc
      simp [goBackToList, hc] at hv

theorem saveOverride_overrides_map_invariant_witness :
    sampleState.selectedQuestion = some sampleQuestion ∧
    (∃ st', saveOverride sampleState = some st' ∧
      (∀ k, k ≠ sampleQuestion.name →
        st'.overrides k = sampleState.overrides k) ∧
      ((sampleState.selectedQuestionOverride = EMPTY_VALUE ∨
        ∃ s, sampleState.selectedQuestionOverride = JSValue.str s ∧
          1 ≤ s.length) →
        st'.overrides sampleQuestion.name =
          some sampleState.selectedQuestionOverride) ∧
      (¬(sampleState.selectedQuestionOverride = EMPTY_VALUE ∨
         ∃ s, sampleState.selectedQuestionOverride = JSValue.str s ∧
           1 ≤ s.length) →
        st'.overrides sampleQuestion.name = none) ∧
      (∀ v, st'.overrides sampleQuestion.name = some v →
        v = EMPTY_VALUE ∨ ∃ s, v = JSValue.str s ∧ 1 ≤ s.length)) :=
  ⟨rfl, saveOverride_overrides_map_invariant sampleState sampleQuestion rfl⟩

/-- Claim C9: for every `originalData` list, `getUniqueResponses` returns
one entry per distinct response value, each entry's count equals the number
of occurrences of that value in the list, the counts sum to the list's
length, and the entries are ordered by non-increasing count. -/
theorem getUniqueResponses_counts_and_sorted (originalData : List JSValue) :
    ((getUniqueResponses originalData).map Prod.fst).Nodup ∧
    (∀ v : JSValue,
      v ∈ (getUniqueResponses originalData).map Prod.fst ↔
        v ∈ originalData) ∧
    (∀ v n, (v, n) ∈ getUniqueResponses originalData →
      n = originalData.count v) ∧
    ((getUniqueResponses originalData).map Prod.snd).sum =
      originalData.length ∧
    (getUniqueResponses originalData).Sorted byCountDesc := by
  have hperm : (getUniqueResponses originalData).Perm
      (originalData.foldl bump []) :=
    List.perm_insertionSort byCountDesc _
  have hpermfst := hperm.map Prod.fst
  have hpermsnd := hperm.map Prod.snd
  have hnd : ((originalData.foldl bump []).map Prod.fst).Nodup :=
    keys_nodup_foldl_bump originalData [] (by simp)
  refine ⟨?_, ?_, ?_, ?_, ?_⟩
  · exact hpermfst.nodup_iff.mpr hnd
  · intro v
    rw [hpermfst.mem_iff, mem_keys_foldl_bump]
    simp
  · intro v n hmem
    have hmem' : (v, n) ∈ originalData.foldl bump [] :=
      hperm.mem_iff.mp hmem
    have hco := countOf_eq_of_mem _ v n hnd hmem'
    rw [countOf_foldl_bump] at hco
    simpa [countOf] using hco.symm
  · rw [hpermsnd.sum_eq, sum_foldl_bump]
    simp
  · exact List.sorted_insertionSort byCountDesc _

theorem getUniqueResponses_counts_and_sorted_witness :
    ((JSValue.str "a", 2) ∈ getUniqueResponses
      [JSValue.str "a", JSValue.undef, JSValue.str "a"]) ∧
    2 = List.count (JSValue.str "a")
      [JSValue.str "a", JSValue.undef, JSValue.str "a"] :=
  ⟨by decide,
   (getUniqueResponses_counts_and_sorted
      [JSValue.str "a", JSValue.undef, JSValue.str "a"]).2.2.1
     (JSValue.str "a") 2 (by decide)⟩

/-- Claim C10 counterexample: with the options object in the `filter` slot
and a string in the `text` slot, the overwritten `contains` command does
not shift the arguments — `filter` stays the options object instead of
becoming `undefined` and `text` keeps its string — because the code's
shift trigger tests the `text` slot (`typeof text === 'object'`), not the
`filter` slot. -/
theorem contains_overwrite_ignores_object_in_filter_slot :
    (containsOverwrite
      (ContainsArg.obj { matchCase := MatchCaseValue.bool true })
      (ContainsArg.str "Login") none).filter =
        ContainsArg.obj { matchCase := MatchCaseValue.bool true } ∧
    (containsOverwrite
      (ContainsArg.obj { matchCase := MatchCaseValue.bool true })
      (ContainsArg.str "Login") none).filter ≠ ContainsArg.undef ∧
    (containsOverwrite
      (ContainsArg.obj { matchCase := MatchCaseValue.bool true })
      (ContainsArg.str "Login") none).text = ContainsArg.str "Login" := by
  refine ⟨rfl, ?_, rfl⟩
  decide

/-- Claim C10 (amended): the overwritten Cypress `contains` command sets
`options.matchCase` to `false` exactly when `matchCase` is `undefined` or
`null`, preserves any caller-supplied `matchCase` value (including an
explicit `true`), and when the `text` slot holds the options object it
shifts arguments so that `text` takes the `filter` value and `filter`
becomes `undefined` before delegating to the original command. -/
theorem contains_overwrite_behaviour (filter text : ContainsArg)
    (optionsArg : Option ContainsOptions) :
    (∀ o : ContainsOptions,
      ((o.matchCase = MatchCaseValue.undef ∨
        o.matchCase = MatchCaseValue.nullv) →
        matchCaseNullishDefault o =
          { matchCase := MatchCaseValue.bool false }) ∧
      (∀ b, o.matchCase = MatchCaseValue.bool b →
        matchCaseNullishDefault o = o)) ∧
    (∀ o : ContainsOptions, text = ContainsArg.obj o →
      containsOverwrite filter text optionsArg =
        { filter := ContainsArg.undef, text := filter,
          options := matchCaseNullishDefault o }) ∧
    ((∀ o : ContainsOptions, text ≠ ContainsArg.obj o) →
      containsOverwrite filter text optionsArg =
        { filter := filter, text := text,
          options := matchCaseNullishDefault
            (optionsArg.getD { matchCase := MatchCaseValue.undef }) }) := by
  refine ⟨?_, ?_, ?_⟩
  · intro o
    constructor
    · rintro (hm | hm) <;> simp [matchCaseNullishDefault, hm]
    · intro b hb
      simp [matchCaseNullishDefault, hb]
  · rintro o rfl
    rfl
  · intro hne
    cases text with
    | undef => rfl
    | str s => rfl
    | obj o => exact absurd rfl (hne o)

theorem contains_overwrite_behaviour_witness :
    containsOverwrite (ContainsArg.str "Login")
      (ContainsArg.obj { matchCase := MatchCaseValue.undef }) none =
      { filter := ContainsArg.undef, text := ContainsArg.str "Login",
        options := { matchCase := MatchCaseValue.bool false } } := by
  have h := (contains_overwrite_behaviour (ContainsArg.str "Login")
      (ContainsArg.obj { matchCase := MatchCaseValue.undef }) none).2.1
    { matchCase := MatchCaseValue.undef } rfl
  simpa [matchCaseNullishDefault] using h
